import Mathlib

/-!
Verification of the binary-provisioning and download-orchestration core of a
Tauri media-download application, shallowly embedded from the Rust sources
(`src-tauri/src/lib.rs`, `src-tauri/src/utils/yt_dlp.rs`,
`src-tauri/src/utils/ffmpeg.rs`).

Strings are modelled as lists of Unicode scalar values (`Str := List Char`);
indices returned by the substring searches are therefore scalar indices, and
the ASCII search patterns used by the code make the scalar/byte distinction
immaterial for the bounds facts proved below.  Fallible Rust operations
return `Except`/`Option`; the `&str` slicing operations that can panic in
Rust are modelled by checked operations returning `Except Unit`, so that
totality of the parser is a real theorem rather than a triviality.
External effects (filesystem probes, network downloads, process spawning)
are supplied by explicit environment records, and the functions additionally
return the ordered list of effects they perform.
-/

namespace YtDlpX

instance {ε α : Type _} [DecidableEq ε] [DecidableEq α] : DecidableEq (Except ε α) := fun a b =>
  match a, b with
  | .ok x, .ok y =>
    if h : x = y then .isTrue (by rw [h]) else .isFalse (fun c => h (Except.ok.inj c))
  | .error x, .error y =>
    if h : x = y then .isTrue (by rw [h]) else .isFalse (fun c => h (Except.error.inj c))
  | .ok _, .error _ => .isFalse (fun c => Except.noConfusion c)
  | .error _, .ok _ => .isFalse (fun c => Except.noConfusion c)

/-- Rust `&str` modelled as a list of Unicode scalar values. -/
abbrev Str := List Char

/-- Unicode `White_Space` property, as used by Rust `char::is_whitespace`. -/
def isRustWhitespace (c : Char) : Bool :=
  let n := c.toNat
  decide (n = 0x20 ∨ (0x9 ≤ n ∧ n ≤ 0xD) ∨ n = 0x85 ∨ n = 0xA0 ∨ n = 0x1680 ∨
    (0x2000 ≤ n ∧ n ≤ 0x200A) ∨ n = 0x2028 ∨ n = 0x2029 ∨ n = 0x202F ∨
    n = 0x205F ∨ n = 0x3000)

/-- Rust `str::trim_start`. -/
def trimStart (s : Str) : Str := s.dropWhile isRustWhitespace

/-- Rust `str::trim_end`. -/
def trimEnd (s : Str) : Str := (s.reverse.dropWhile isRustWhitespace).reverse

/-- Rust `str::trim`. -/
def trim (s : Str) : Str := trimEnd (trimStart s)

/-- Rust `str::split_once(c)`: split at the first occurrence of `c`,
both parts excluding the separator itself. -/
def splitOnceChar (c : Char) : Str → Option (Str × Str)
  | [] => none
  | x :: xs =>
    if x = c then some ([], xs)
    else (splitOnceChar c xs).map (fun p => (x :: p.1, p.2))

/-- Split at the first character satisfying `p` (used for the exponent
separator of the float grammar). -/
def splitOnceBy (p : Char → Bool) : Str → Option (Str × Str)
  | [] => none
  | x :: xs =>
    if p x then some ([], xs)
    else (splitOnceBy p xs).map (fun q => (x :: q.1, q.2))

/-- Does `pat` occur in `s` starting at index `i`? -/
def matchesAt (s pat : Str) (i : Nat) : Bool := pat.isPrefixOf (s.drop i)

/-- Rust `str::find(pat)`: index of the first occurrence of `pat`. -/
def findSub (s pat : Str) : Option Nat :=
  (List.range (s.length + 1)).find? (matchesAt s pat)

/-- Rust `str::rfind(pat)`: index of the last occurrence of `pat`. -/
def rfindSub (s pat : Str) : Option Nat :=
  ((List.range (s.length + 1)).filter (matchesAt s pat)).getLast?

/-- Rust `str::contains(pat)`. -/
def containsSub (s pat : Str) : Bool := (findSub s pat).isSome

/-- Rust slice `s[i..]`; models the panic on an out-of-range start index
as `Except.error`. -/
def sliceFrom (s : Str) (i : Nat) : Except Unit Str :=
  if i ≤ s.length then .ok (s.drop i) else .error ()

/-- Rust slice `s[..i]`; models the panic on an out-of-range end index
as `Except.error`. -/
def sliceTo (s : Str) (i : Nat) : Except Unit Str :=
  if i ≤ s.length then .ok (s.take i) else .error ()

/-- Rust `str::strip_prefix(pat)`. -/
def stripLeading (pat s : Str) : Option Str :=
  if pat.isPrefixOf s then some (s.drop pat.length) else none

/-- Rust `str::trim_end_matches(',')`: strip every trailing comma. -/
def trimEndMatchesComma (s : Str) : Str :=
  (s.reverse.dropWhile (fun c => c = ',')).reverse

/-- Rust `s.split_whitespace().next()`: the first maximal run of
non-whitespace characters, or `none` if the string is all whitespace. -/
def firstWhitespaceToken (s : Str) : Option Str :=
  let t := (s.dropWhile isRustWhitespace).takeWhile (fun c => !isRustWhitespace c)
  if t = [] then none else some t

/-- One stripping step of Rust `str::trim_start_matches(pat)`, with explicit
fuel; `fuel = s.length` always suffices for a nonempty pattern because each
step removes `pat.length ≥ 1` characters. -/
def trimStartMatchesF (pat : Str) : Nat → Str → Str
  | 0, s => s
  | Nat.succ fuel, s =>
    if pat ≠ [] ∧ pat.isPrefixOf s then trimStartMatchesF pat fuel (s.drop pat.length)
    else s

/-- Rust `str::trim_start_matches(pat)`: repeatedly strip the prefix `pat`. -/
def trimStartMatches (pat s : Str) : Str := trimStartMatchesF pat s.length s

/-- ASCII digit test for the float grammar. -/
def isAsciiDigit (c : Char) : Bool := decide ('0' ≤ c ∧ c ≤ '9')

/-- Numeric value of a list of ASCII digits, most significant first. -/
def natOfDigits (l : Str) : Nat := l.foldl (fun acc c => acc * 10 + (c.toNat - '0'.toNat)) 0

/-- Value of an `f64` as produced by Rust `str::parse::<f64>`, at exact
rational precision: a finite value is `num / den` with `den` a positive
power of ten (kept unnormalized so that all arithmetic is structural). -/
inductive FVal where
  | nan
  | inf (neg : Bool)
  | finite (num : Int) (den : Nat)
  deriving DecidableEq

/-- The exact rational value of a finite parsed float. -/
def fvalToRat : FVal → Option ℚ
  | .finite num den => some ((num : ℚ) / (den : ℚ))
  | _ => none

/-- Exponent part of the Rust float grammar: optional sign then digits. -/
def parseExponent (s : Str) : Option Int :=
  let signBody : Bool × Str :=
    match s with
    | '+' :: rest => (false, rest)
    | '-' :: rest => (true, rest)
    | _ => (false, s)
  let neg := signBody.1
  let body := signBody.2
  if body ≠ [] ∧ body.all isAsciiDigit then
    some (if neg then -(natOfDigits body : Int) else (natOfDigits body : Int))
  else none

/-- Mantissa part of the Rust float grammar:
`Digit+ | Digit+ '.' Digit* | Digit* '.' Digit+`.  Returns the value as
numerator over a power-of-ten denominator. -/
def parseMantissa (s : Str) : Option (Int × Nat) :=
  match splitOnceChar '.' s with
  | none => if s ≠ [] ∧ s.all isAsciiDigit then some ((natOfDigits s : Int), 1) else none
  | some (ip, fp) =>
    if (ip ≠ [] ∨ fp ≠ []) ∧ ip.all isAsciiDigit ∧ fp.all isAsciiDigit then
      some ((natOfDigits (ip ++ fp) : Int), 10 ^ fp.length)
    else none

/-- Finite-number part of the Rust float grammar: mantissa with optional
`e`/`E` exponent, the exponent folded into the numerator or denominator. -/
def parseNumber (s : Str) : Option (Int × Nat) :=
  match splitOnceBy (fun c => c = 'e' ∨ c = 'E') s with
  | none => parseMantissa s
  | some (m, e) => do
    let mv ← parseMantissa m
    let ev ← parseExponent e
    some (if 0 ≤ ev then (mv.1 * (10 : Int) ^ ev.toNat, mv.2)
          else (mv.1, mv.2 * 10 ^ (-ev).toNat))

/-- Rust `str::parse::<f64>()` (grammar-faithful; finite values kept at
exact rational precision): optional sign, then case-insensitive
`inf`/`infinity`/`nan` or a decimal number with optional exponent. -/
def rustParseF64 (s : Str) : Option FVal :=
  let signBody : Bool × Str :=
    match s with
    | '+' :: rest => (false, rest)
    | '-' :: rest => (true, rest)
    | _ => (false, s)
  let neg := signBody.1
  let body := signBody.2
  let lower := body.map Char.toLower
  if lower = "inf".data ∨ lower = "infinity".data then some (.inf neg)
  else if lower = "nan".data then some .nan
  else (parseNumber body).map (fun p => .finite (if neg then -p.1 else p.1) p.2)

/-- The Rust comparison `v >= 100.0` on a parsed `f64`
(`num / den ≥ 100 ↔ num ≥ 100 * den` for a positive denominator). -/
def geHundred : FVal → Bool
  | .nan => false
  | .inf neg => !neg
  | .finite num den => decide ((100 : Int) * den ≤ num)

/-- The `ProgressInfo` struct of `lib.rs` (`percent: f64` at exact
rational precision). -/
structure ProgressInfo where
  percent : FVal
  percent_str : Str
  eta : Option Str
  speed : Option Str
  total : Option Str
  status : Option Str
  raw : Str
  deriving DecidableEq

/-- The fixed progress-line marker `"[download]"`. -/
def markStr : Str := "[download]".data

/-- ETA extraction step of `parse_progress_line` (`lib.rs` 462-474):
last `"ETA "`, else last `" in "`, taking the trimmed trailing text. -/
def etaExtract (rest : Str) : Except Unit (Option Str) :=
  match rfindSub rest "ETA ".data with
  | some index =>
    (sliceFrom rest (index + 4)).map (fun tail =>
      let value := trim tail
      if value = [] then none else some value)
  | none =>
    match rfindSub rest " in ".data with
    | some index =>
      (sliceFrom rest (index + 4)).map (fun tail =>
        let value := trim tail
        if value = [] then none else some value)
    | none => .ok none

/-- Speed extraction step of `parse_progress_line` (`lib.rs` 476-485):
first whitespace token after `" at "`, trailing comma stripped. -/
def speedExtract (rest : Str) : Except Unit (Option Str) :=
  match findSub rest " at ".data with
  | some index =>
    (sliceFrom rest (index + 4)).map (fun after =>
      match firstWhitespaceToken after with
      | some token =>
        let cleaned := trimEndMatchesComma (trim token)
        if cleaned = [] then none else some cleaned
      | none => none)
  | none => .ok none

/-- End index of the total-size segment (`lib.rs` 489-494): the earliest of
`" at "`, `" ETA "`, `" in "`, or the end of the string. -/
def totalEndIndex (after_of : Str) : Nat :=
  [" at ".data, " ETA ".data, " in ".data].foldl
    (fun e m => match findSub after_of m with
      | some idx => min e idx
      | none => e)
    after_of.length

/-- Total-size extraction step of `parse_progress_line` (`lib.rs` 487-499):
after a leading `"of "`, up to the earliest marker, trimmed and with
trailing comma stripped. -/
def totalExtract (rest : Str) : Except Unit (Option Str) :=
  match stripLeading "of ".data (trimStart rest) with
  | some after_of =>
    (sliceTo after_of (totalEndIndex after_of)).map (fun c0 =>
      let candidate := trimEndMatchesComma (trim c0)
      if candidate = [] then none else some candidate)
  | none => .ok none

/-- `parse_progress_line` (`lib.rs` 446-517).  `Except.error ()` models a
panicking string-slice operation; `Except.ok none` models Rust `None`. -/
def parse_progress_line (line : Str) : Except Unit (Option ProgressInfo) :=
  if markStr.isPrefixOf line then
    match splitOnceChar '%' (trim (trimStartMatches markStr line)) with
    | none => .ok none
    | some (percent_part, rest_part) =>
      if trim percent_part = [] then .ok none
      else
        match rustParseF64 (trim percent_part) with
        | none => .ok none
        | some percent_value =>
          match etaExtract (trim rest_part), speedExtract (trim rest_part),
              totalExtract (trim rest_part) with
          | .ok eta, .ok speed, .ok total =>
            .ok (some { percent := percent_value,
                        percent_str := trim percent_part ++ ['%'],
                        eta := eta, speed := speed, total := total,
                        status :=
                          if containsSub (trim rest_part) " in ".data ||
                              geHundred percent_value then
                            some "finished".data
                          else if containsSub (trim rest_part) "ETA".data ||
                              !(trim rest_part).isEmpty then
                            some "downloading".data
                          else none,
                        raw := trim (trimStartMatches markStr line) })
          | _, _, _ => .error ()
  else .ok none

/-! ### Stream forwarding (`forward_stream`, `lib.rs` 519-577) -/

/-- An event emitted to the external sink by `forward_stream`. -/
inductive Event where
  | log (sessionId : Str) (stream : Str) (line : Str)
  | progress (sessionId : Str) (info : ProgressInfo)
  deriving DecidableEq

/-- `forward_stream` (`lib.rs` 519-577) over an already-read list of lines:
every line is buffered and logged, and each line recognized by
`parse_progress_line` additionally yields one progress event carrying the
fields of its `ProgressInfo`.  Returns (emitted events, line buffer). -/
def forward_stream (lines : List Str) (sessionId : Str) (stream : Str) :
    List Event × List Str :=
  (lines.flatMap (fun line =>
    Event.log sessionId stream line ::
      (match parse_progress_line line with
       | .ok (some info) => [Event.progress sessionId info]
       | _ => [])),
   lines)

/-! ### URL predicates and argument building (`lib.rs` 233-434) -/

/-- `is_bilibili_url` (`lib.rs` 423-429). -/
def is_bilibili_url (url : Str) : Bool :=
  let lower := url.map Char.toLower
  containsSub lower "bilibili.com".data || containsSub lower "b23.tv".data ||
    containsSub lower "bilivideo.com".data || containsSub lower "acg.tv".data

/-- `is_douyin_url` (`lib.rs` 431-434). -/
def is_douyin_url (url : Str) : Bool :=
  let lower := url.map Char.toLower
  containsSub lower "douyin.com".data || containsSub lower "iesdouyin.com".data

/-- `DOUYIN_REFERER` (`lib.rs` 23). -/
def douyinReferer : Str := "https://www.douyin.com/".data

/-- `DOUYIN_USER_AGENT` (`lib.rs` 24). -/
def douyinUserAgent : Str :=
  "Mozilla/5.0 (iPhone; CPU iPhone OS 14_0 like Mac OS X) AppleWebKit/605.1.15 (KHTML, like Gecko) Version/14.0 Mobile/15E148 Safari/604.1".data

/-- `DownloadMode` (`lib.rs` 54-59). -/
inductive DownloadMode where
  | audio
  | video
  deriving DecidableEq

/-- `VideoQuality` (`lib.rs` 61-73); `highest` is the serde default. -/
inductive VideoQuality where
  | low
  | medium
  | highest
  deriving DecidableEq

/-- `DownloadRequest` (`lib.rs` 42-52). -/
structure DownloadRequest where
  url : Str
  mode : DownloadMode
  browser : Option Str
  output_dir : Option Str
  session_id : Option Str
  quality : VideoQuality

/-- `DownloadResponse` (`lib.rs` 75-82). -/
structure DownloadResponse where
  success : Bool
  stdout : Str
  stderr : Str
  output_dir : Str
  deriving DecidableEq

/-- `video_format_for_quality` (`lib.rs` 409-421). -/
def video_format_for_quality (quality : VideoQuality) (url : Str) : Str :=
  match quality with
  | .low => "bv*[height<=480]+ba/b[height<=480]/bv*[height<=720]+ba/b[height<=720]/worst".data
  | .medium => "bv*[height<=1080]+ba/b[height<=1080]/bv*[height<=720]+ba/b[height<=720]/b".data
  | .highest =>
    if is_bilibili_url url then "bv*[height>=2160]+ba/bv*[height>=1080]+ba/bv*+ba/b".data
    else "bv*+ba/b".data

/-- The fixed base arguments pushed first (`lib.rs` 273-282). -/
def baseArgs (outputDir : Str) : List Str :=
  ["--newline".data, "--no-playlist".data, "--continue".data, "--no-mtime".data,
   "-o".data, "%(title)s.%(ext)s".data, "-P".data, outputDir]

/-- The cookie-source flag literal. -/
def cookieFlag : Str := "--cookies-from-browser".data

/-- The conditional cookie arguments (`lib.rs` 284-291): pushed exactly when
the supplied browser hint is nonempty after trimming. -/
def cookie_args (browser : Option Str) : List Str :=
  match browser with
  | some b => let t := trim b; if t = [] then [] else [cookieFlag, t]
  | none => []

/-- The audio-mode arguments (`lib.rs` 296-303). -/
def audioArgs : List Str :=
  ["-f".data, "bestaudio/best".data, "-x".data, "--audio-format".data, "mp3".data,
   "--embed-thumbnail".data, "--convert-thumbnails".data, "jpg".data]

/-- The video-mode arguments (`lib.rs` 307-310). -/
def videoArgs (quality : VideoQuality) (url : Str) : List Str :=
  ["-f".data, video_format_for_quality quality url, "--merge-output-format".data, "mp4".data]

/-- The `--ffmpeg-location` arguments (`lib.rs` 315-318). -/
def ffmpegLocArgs : Option Str → List Str
  | some p => ["--ffmpeg-location".data, p]
  | none => []

/-- `apply_site_specific_overrides` (`lib.rs` 400-407). -/
def siteOverrideArgs (url : Str) : List Str :=
  if is_douyin_url url then
    ["--referer".data, douyinReferer, "--user-agent".data, douyinUserAgent]
  else []

/-- The full argument list handed to the spawned process (`lib.rs` 273-322):
base, cookies, mode flags, transcoder pin, site overrides, then the URL last. -/
def build_args (url outputDir : Str) (browser : Option Str) (modeA : List Str)
    (ffmpegPath : Option Str) : List Str :=
  baseArgs outputDir ++ cookie_args browser ++ modeA ++ ffmpegLocArgs ffmpegPath ++
    siteOverrideArgs url ++ [url]

/-! ### Download orchestration (`download_media`, `lib.rs` 233-398) -/

/-- An externally observable effect of one `download_media` /
`fetch_media_preview` invocation, in order of occurrence. -/
inductive Effect where
  | ensureYtDlp
  | createDirAll (path : Str)
  | ensureFfmpeg
  | detectFfmpeg
  | spawn (binary : Str) (args : List Str)
  | wait
  | runOutput (binary : Str) (args : List Str)
  deriving DecidableEq

/-- Environment of one `download_media` invocation: results of the external
operations it performs, and the lines its two readers buffer. -/
structure DlEnv where
  ytDlp : Except Str Str
  createDir : Except Str Unit
  ffmpegEnsure : Except Str Str
  ffmpegDetect : Except Str (Option Str)
  spawnResult : Except Str Unit
  exitCode : Except Str Int
  stdoutLines : List Str
  stderrLines : List Str
  defaultDir : Str

/-- The resolved output directory (`lib.rs` 262-267): the trimmed nonempty
requested directory, else the platform default download directory. -/
def resolvedOutputDir (r : DownloadRequest) (env : DlEnv) : Str :=
  match r.output_dir with
  | some d => let t := trim d; if t = [] then env.defaultDir else t
  | none => env.defaultDir

/-- Mode-specific resolution (`lib.rs` 293-313): audio requires the
transcoder (`ensure_available`), video only probes for it
(`detect_existing`). Returns (mode args, transcoder path, effects). -/
def resolveMode (r : DownloadRequest) (url : Str) (env : DlEnv) :
    Except (Str × List Effect) (List Str × Option Str × List Effect) :=
  match r.mode with
  | .audio =>
    match env.ffmpegEnsure with
    | .error e => .error (e, [.ensureFfmpeg])
    | .ok p => .ok (audioArgs, some p, [.ensureFfmpeg])
  | .video =>
    match env.ffmpegDetect with
    | .error e => .error (e, [.detectFfmpeg])
    | .ok fopt => .ok (videoArgs r.quality url, fopt, [.detectFfmpeg])

/-- `"\n"`-joined buffer aggregation (`lib.rs` 380-390). -/
def joinLines (lines : List Str) : Str := List.intercalate ['\n'] lines

/-- Spawn, wait and aggregate (`lib.rs` 324-398): spawn failure and wait
failure surface as errors; a completed process maps exit code `0` to
`success := true` and any other code to `success := false`, with both
aggregated streams attached. -/
def runSpawn (binary : Str) (args : List Str) (outputDir : Str) (env : DlEnv)
    (effs : List Effect) : Except Str DownloadResponse × List Effect :=
  match env.spawnResult with
  | .error e => (.error ("执行 yt-dlp 失败: ".data ++ e), effs ++ [.spawn binary args])
  | .ok _ =>
    match env.exitCode with
    | .error e => (.error ("等待 yt-dlp 结束失败: ".data ++ e), effs ++ [.spawn binary args, .wait])
    | .ok code =>
      (.ok { success := code == 0,
             stdout := trim (joinLines env.stdoutLines),
             stderr := trim (joinLines env.stderrLines),
             output_dir := outputDir },
       effs ++ [.spawn binary args, .wait])

/-- `download_media` (`lib.rs` 233-398): validate the URL, resolve the
downloader, create the output directory, build the argument list, spawn and
supervise.  Returns the command result and the ordered effect trace. -/
def download_media (r : DownloadRequest) (env : DlEnv) :
    Except Str DownloadResponse × List Effect :=
  let url := trim r.url
  if url = [] then (.error "请输入有效的视频链接".data, [])
  else
    match env.ytDlp with
    | .error e => (.error e, [.ensureYtDlp])
    | .ok binaryPath =>
      let dir := resolvedOutputDir r env
      match env.createDir with
      | .error e => (.error ("无法创建下载目录: ".data ++ e), [.ensureYtDlp, .createDirAll dir])
      | .ok _ =>
        match resolveMode r url env with
        | .error (e, effs) => (.error e, [.ensureYtDlp, .createDirAll dir] ++ effs)
        | .ok (modeA, ffp, effs) =>
          runSpawn binaryPath (build_args url dir r.browser modeA ffp) dir env
            ([.ensureYtDlp, .createDirAll dir] ++ effs)

/-- The arguments of the first spawn effect in a trace, if any. -/
def spawnArgsOf : List Effect → Option (List Str)
  | [] => none
  | .spawn _ args :: _ => some args
  | _ :: rest => spawnArgsOf rest

/-- Bool test used by concrete counterexamples: the trace spawns a process
whose argument list contains `x`. -/
def spawnArgsHave (trace : List Effect) (x : Str) : Bool :=
  match spawnArgsOf trace with
  | some args => decide (x ∈ args)
  | none => false

/-! ### Media preview (`fetch_media_preview`, `lib.rs` 157-231) -/

/-- `serde_json::Value`, restricted to the shape the preview extraction
inspects. -/
inductive JVal where
  | null
  | bool (b : Bool)
  | num (q : ℚ)
  | str (s : Str)
  | arr (items : List JVal)
  | obj (fields : List (Str × JVal))

/-- `Value::get(key)` on an object. -/
def jget (v : JVal) (key : Str) : Option JVal :=
  match v with
  | .obj fields => (fields.find? (fun kv => decide (kv.1 = key))).map (fun kv => kv.2)
  | _ => none

/-- `Value::as_array`. -/
def jarr : JVal → Option (List JVal)
  | .arr items => some items
  | _ => none

/-- `Value::as_str`. -/
def jstr : JVal → Option Str
  | .str s => some s
  | _ => none

/-- `Value::as_f64` (numbers kept at exact rational precision). -/
def jnum : JVal → Option ℚ
  | .num q => some q
  | _ => none

/-- `optional_string` (`lib.rs` 221-223). -/
def optional_string (v : Option JVal) : Option Str := v.bind jstr

/-- `extract_primary_entry` (`lib.rs` 225-231): the first element of a
multi-entry collection, else the document itself. -/
def extract_primary_entry (v : JVal) : JVal :=
  match ((jget v "entries".data).bind jarr).bind List.head? with
  | some entry => entry
  | none => v

/-- `MediaPreview` (`lib.rs` 90-99). -/
structure MediaPreview where
  title : Option Str
  thumbnail : Option Str
  uploader : Option Str
  duration : Option ℚ
  extractor : Option Str
  webpage_url : Option Str
  deriving DecidableEq

/-- The preview field extraction (`lib.rs` 195-216). -/
def buildPreview (payload : JVal) : MediaPreview :=
  { title := optional_string (jget payload "title".data),
    thumbnail := optional_string (jget payload "thumbnail".data),
    uploader := optional_string
      ((jget payload "uploader".data).orElse (fun _ =>
        (jget payload "channel".data).orElse (fun _ => jget payload "artist".data))),
    duration := (jget payload "duration".data).bind jnum,
    extractor := optional_string
      ((jget payload "extractor_key".data).orElse (fun _ => jget payload "extractor".data)),
    webpage_url := optional_string
      ((jget payload "webpage_url".data).orElse (fun _ =>
        (jget payload "original_url".data).orElse (fun _ => jget payload "url".data))) }

/-- `PreviewRequest` (`lib.rs` 84-88). -/
structure PreviewRequest where
  url : Str

/-- Environment of one `fetch_media_preview` invocation. -/
structure PrevEnv where
  ytDlp : Except Str Str
  outputResult : Except Str (Bool × Str × Str)
  parsedJson : Except Str JVal

/-- `fetch_media_preview` (`lib.rs` 157-219): validate the URL, resolve the
downloader, run it in metadata-only mode, parse one JSON document and
extract the preview fields.  Returns the result and the effect trace. -/
def fetch_media_preview (r : PreviewRequest) (env : PrevEnv) :
    Except Str MediaPreview × List Effect :=
  let url := trim r.url
  if url = [] then (.error "请输入需要解析的视频链接".data, [])
  else
    match env.ytDlp with
    | .error e => (.error e, [.ensureYtDlp])
    | .ok binaryPath =>
      let args := ["--dump-single-json".data, "--no-warnings".data, "--no-call-home".data,
                   "--no-playlist".data, "--skip-download".data, url]
      match env.outputResult with
      | .error e => (.error ("解析视频信息失败: ".data ++ e), [.ensureYtDlp, .runOutput binaryPath args])
      | .ok (success, _stdoutBytes, stderrBytes) =>
        if success then
          match env.parsedJson with
          | .error e =>
            (.error ("解析视频信息失败: ".data ++ e), [.ensureYtDlp, .runOutput binaryPath args])
          | .ok parsed =>
            (.ok (buildPreview (extract_primary_entry parsed)),
             [.ensureYtDlp, .runOutput binaryPath args])
        else
          let stderr := trim stderrBytes
          (.error (if stderr ≠ [] then stderr else "解析视频信息失败，请确认链接可访问。".data),
           [.ensureYtDlp, .runOutput binaryPath args])

/-! ### Binary resolution (`utils/yt_dlp.rs`, `utils/ffmpeg.rs`) -/

/-- `BinarySource` (`utils/yt_dlp.rs` 6-10, `utils/ffmpeg.rs` 6-10). -/
inductive BinarySource where
  | System
  | Bundled
  deriving DecidableEq

/-- A filesystem/network effect of the downloader resolver. -/
inductive REffect where
  | permsFix (path : Str)
  | downloadTo (path : Str)
  deriving DecidableEq

/-- Environment of the downloader resolver (`utils/yt_dlp.rs`): the system
search result, the application data directory (`ProjectDirs`, `none` when it
cannot be located), whether the bundled file exists, and the results of the
permission fix and the network download. -/
structure YtEnv where
  systemBinary : Option Str
  dataDir : Option Str
  bundledExists : Bool
  permsResult : Except Str Unit
  downloadResult : Except Str Unit

/-- `bundled_binary_path` (`utils/yt_dlp.rs` 83-86), POSIX file name. -/
def ytBundledPathOf (dataDir : Str) : Str := dataDir ++ "/bin/yt-dlp".data

/-- `bundled_binary_path` with the `ProjectDirs` failure propagated. -/
def yt_bundled_binary_path (env : YtEnv) : Except Str Str :=
  match env.dataDir with
  | some d => .ok (ytBundledPathOf d)
  | none => .error "无法定位应用数据目录".data

/-- `detect_bundled_binary` (`utils/yt_dlp.rs` 74-81). -/
def yt_detect_bundled_binary (env : YtEnv) : Except Str (Option Str) :=
  match yt_bundled_binary_path env with
  | .error e => .error e
  | .ok p => .ok (if env.bundledExists then some p else none)

/-- `ensure_available` (`utils/yt_dlp.rs` 24-37): system binary first, else
the existing bundled file with its permissions re-fixed, else a synchronous
download to the bundled path.  Returns the result and the effect trace. -/
def yt_ensure_available (env : YtEnv) :
    Except Str (Str × BinarySource) × List REffect :=
  match env.systemBinary with
  | some p => (.ok (p, .System), [])
  | none =>
    match yt_detect_bundled_binary env with
    | .error e => (.error e, [])
    | .ok (some p) =>
      match env.permsResult with
      | .ok _ => (.ok (p, .Bundled), [.permsFix p])
      | .error e => (.error e, [.permsFix p])
    | .ok none =>
      match yt_bundled_binary_path env with
      | .error e => (.error e, [])
      | .ok p =>
        match env.downloadResult with
        | .ok _ => (.ok (p, .Bundled), [.downloadTo p, .permsFix p])
        | .error e => (.error e, [.downloadTo p])

/-- The filesystem consequence of the resolver effects: a completed download
makes the bundled file exist; a permission fix changes nothing observable. -/
def applyREffects (env : YtEnv) (effs : List REffect) : YtEnv :=
  effs.foldl (fun acc e =>
    match e with
    | .downloadTo _ => { acc with bundledExists := true }
    | .permsFix _ => acc) env

/-- Environment of the transcoder resolver (`utils/ffmpeg.rs`). -/
structure FfEnv where
  systemBinary : Option Str
  dataDir : Option Str
  bundledExists : Bool

/-- `bundled_binary_path` (`utils/ffmpeg.rs` 97-100), POSIX file name. -/
def ffBundledPathOf (dataDir : Str) : Str := dataDir ++ "/bin/ffmpeg".data

/-- `detect_existing` (`utils/ffmpeg.rs` 12-22). -/
def ffmpeg_detect_existing (env : FfEnv) : Except Str (Option (Str × BinarySource)) :=
  match env.systemBinary with
  | some p => .ok (some (p, .System))
  | none =>
    match env.dataDir with
    | none => .error "无法定位应用数据目录".data
    | some d => .ok (if env.bundledExists then some (ffBundledPathOf d, .Bundled) else none)

/-- The fixed transcoder-missing message (`utils/ffmpeg.rs` 26). -/
def ffmpegMissingMsg : Str :=
  "未检测到系统或内置 ffmpeg，请先安装后再试，以便下载音频并嵌入封面。".data

/-- `ensure_available` (`utils/ffmpeg.rs` 24-27): detection only — when
neither a system nor a bundled transcoder exists it returns the fixed error
and performs no installation. -/
def ffmpeg_ensure_available (env : FfEnv) : Except Str (Str × BinarySource) :=
  match ffmpeg_detect_existing env with
  | .error e => .error e
  | .ok (some r) => .ok r
  | .ok none => .error ffmpegMissingMsg

/-- The raw fields of the progress events in an event list, in order. -/
def progressRaws (events : List Event) : List Str :=
  events.filterMap (fun e => match e with
    | .progress _ info => some info.raw
    | _ => none)

/-- The first specification example line. -/
def exLine1 : Str := "[download]  45.2% of 10.00MiB at 1.20MiB/s ETA 00:05".data

/-- The `ProgressInfo` the parser produces for `exLine1`
(`452 / 10 = 45.2`). -/
def exInfo1 : ProgressInfo :=
  { percent := .finite 452 10, percent_str := "45.2%".data, eta := some "00:05".data,
    speed := some "1.20MiB/s".data, total := some "10.00MiB".data,
    status := some "downloading".data,
    raw := "45.2% of 10.00MiB at 1.20MiB/s ETA 00:05".data }

/-- The second specification example line. -/
def exLine2 : Str := "[download] 100% of 5.00MiB in 00:02".data

/-- The `ProgressInfo` the parser produces for `exLine2`. -/
def exInfo2 : ProgressInfo :=
  { percent := .finite 100 1, percent_str := "100%".data, eta := some "00:02".data,
    speed := none, total := some "5.00MiB".data, status := some "finished".data,
    raw := "100% of 5.00MiB in 00:02".data }

/-- Whether an `Except` value is a success. -/
def exceptIsOk {ε α : Type _} : Except ε α → Bool
  | .ok _ => true
  | .error _ => false

/-- Precondition bundle of a completed mode resolution: audio requires the
transcoder resolution to succeed, video only requires the probe call itself
not to fail. -/
def modeResolutionOk (r : DownloadRequest) (env : DlEnv) : Bool :=
  match r.mode with
  | .audio => exceptIsOk env.ffmpegEnsure
  | .video => exceptIsOk env.ffmpegDetect

/-- No transcoder path supplied by the environment collides with the
cookie-flag literal (rules out a pathological path when reasoning about
argument-list membership). -/
def ffpathsOkB (env : DlEnv) : Bool :=
  (match env.ffmpegEnsure with
   | .ok p => decide (p ≠ cookieFlag)
   | .error _ => true)
  && (match env.ffmpegDetect with
      | .ok (some p) => decide (p ≠ cookieFlag)
      | _ => true)

/-- Where a resolved transcoder path in the built arguments can come from. -/
def ffpConstraint (env : DlEnv) (ffp : Option Str) : Prop :=
  ffp = none ∨ ∃ p, ffp = some p ∧
    (env.ffmpegEnsure = .ok p ∨ env.ffmpegDetect = .ok (some p))

/-- A video request for a URL outside both known site families, with a
browser cookie hint. -/
def reqVideo : DownloadRequest :=
  { url := "https://example.com/v".data, mode := .video, browser := some "chrome".data,
    output_dir := some "/tmp/out".data, session_id := none, quality := .highest }

/-- A request whose URL is whitespace only. -/
def reqEmptyUrl : DownloadRequest :=
  { url := "   ".data, mode := .video, browser := none, output_dir := none,
    session_id := none, quality := .highest }

/-- A preview request whose URL is whitespace only. -/
def prEmptyUrl : PreviewRequest := { url := "  ".data }

/-- A download environment in which every external operation succeeds. -/
def envOkC : DlEnv :=
  { ytDlp := .ok "/usr/local/bin/yt-dlp".data, createDir := .ok (),
    ffmpegEnsure := .ok "/usr/local/bin/ffmpeg".data,
    ffmpegDetect := .ok (some "/usr/local/bin/ffmpeg".data),
    spawnResult := .ok (), exitCode := .ok 0,
    stdoutLines := [], stderrLines := [], defaultDir := "/home/u/Downloads".data }

/-- A preview environment in which every external operation succeeds. -/
def penvOkC : PrevEnv :=
  { ytDlp := .ok "/usr/local/bin/yt-dlp".data, outputResult := .ok (true, [], []),
    parsedJson := .ok .null }

/-- `envOkC` with a nonzero exit code and captured stderr. -/
def envExit2 : DlEnv :=
  { envOkC with exitCode := .ok 2, stderrLines := ["error: fragment 3 failed".data] }

/-- `envOkC` with a failing directory creation. -/
def envDirFail : DlEnv :=
  { envOkC with createDir := .error "permission denied".data }

/-- The argument list `download_media` spawns for `reqVideo` in `envOkC`. -/
def argsEx : List Str := (spawnArgsOf (download_media reqVideo envOkC).2).getD []

/-- A downloader-resolver environment with no system binary, no bundled
file, and a succeeding installer. -/
def ytEnvCold : YtEnv :=
  { systemBinary := none, dataDir := some "/data/app".data, bundledExists := false,
    permsResult := .ok (), downloadResult := .ok () }

/-- A downloader-resolver environment with no system binary and an existing
bundled file. -/
def ytEnvBundled : YtEnv :=
  { systemBinary := none, dataDir := some "/data/app".data, bundledExists := true,
    permsResult := .ok (), downloadResult := .ok () }

/-- A transcoder-resolver environment with neither a system nor a bundled
binary. -/
def ffEnvCold : FfEnv :=
  { systemBinary := none, dataDir := some "/data/app".data, bundledExists := false }

/-! ### Helper lemmas -/

theorem matchesAt_bound {s pat : Str} {i : Nat} (hp : pat ≠ [])
    (h : matchesAt s pat i = true) : i + pat.length ≤ s.length := by
  unfold matchesAt at h
  have hpre : pat <+: s.drop i := List.isPrefixOf_iff_prefix.mp h
  have hle := hpre.length_le
  rw [List.length_drop] at hle
  have hpos : 0 < pat.length := List.length_pos.mpr hp
  omega

theorem findSub_bound {s pat : Str} {i : Nat} (hp : pat ≠ [])
    (h : findSub s pat = some i) : i + pat.length ≤ s.length :=
  matchesAt_bound hp (List.find?_some h)

theorem rfindSub_bound {s pat : Str} {i : Nat} (hp : pat ≠ [])
    (h : rfindSub s pat = some i) : i + pat.length ≤ s.length := by
  have hmem := List.mem_of_getLast?_eq_some h
  rw [List.mem_filter] at hmem
  exact matchesAt_bound hp hmem.2

theorem sliceFrom_ok {s : Str} {i : Nat} (h : i ≤ s.length) :
    sliceFrom s i = .ok (s.drop i) := by
  unfold sliceFrom
  rw [if_pos h]

theorem sliceTo_ok {s : Str} {i : Nat} (h : i ≤ s.length) :
    sliceTo s i = .ok (s.take i) := by
  unfold sliceTo
  rw [if_pos h]

theorem etaExtract_ok (rest : Str) : ∃ v, etaExtract rest = .ok v := by
  unfold etaExtract
  split
  · rename_i index h1
    have hb : index + 4 ≤ rest.length := by
      simpa using rfindSub_bound (by decide) h1
    rw [sliceFrom_ok hb]
    exact ⟨_, rfl⟩
  · split
    · rename_i index h2
      have hb : index + 4 ≤ rest.length := by
        simpa using rfindSub_bound (by decide) h2
      rw [sliceFrom_ok hb]
      exact ⟨_, rfl⟩
    · exact ⟨none, rfl⟩

theorem speedExtract_ok (rest : Str) : ∃ v, speedExtract rest = .ok v := by
  unfold speedExtract
  split
  · rename_i index h1
    have hb : index + 4 ≤ rest.length := by
      simpa using findSub_bound (by decide) h1
    rw [sliceFrom_ok hb]
    exact ⟨_, rfl⟩
  · exact ⟨none, rfl⟩

theorem foldlMin_le (s : Str) (ms : List Str) (init : Nat) :
    (ms.foldl (fun e m => match findSub s m with
      | some idx => min e idx
      | none => e) init) ≤ init := by
  induction ms generalizing init with
  | nil => simp
  | cons m ms ih =>
    refine le_trans (ih _) ?_
    cases h : findSub s m with
    | some idx => simp [h]
    | none => simp [h]

theorem totalEndIndex_le (s : Str) : totalEndIndex s ≤ s.length :=
  foldlMin_le s _ _

theorem totalExtract_ok (rest : Str) : ∃ v, totalExtract rest = .ok v := by
  unfold totalExtract
  split
  · rename_i after_of h1
    rw [sliceTo_ok (totalEndIndex_le after_of)]
    exact ⟨_, rfl⟩
  · exact ⟨none, rfl⟩

theorem splitOnceChar_eq_none {c : Char} {s : Str} (h : c ∉ s) :
    splitOnceChar c s = none := by
  induction s with
  | nil => rfl
  | cons x xs ih =>
    have h1 : ¬ x = c := by
      rintro rfl
      exact h (List.mem_cons_self _ _)
    have h2 : c ∉ xs := fun hm => h (List.mem_cons_of_mem _ hm)
    simp [splitOnceChar, h1, ih h2]

theorem mem_of_mem_trim {c : Char} {s : Str} (h : c ∈ trim s) : c ∈ s := by
  unfold trim trimEnd trimStart at h
  rw [List.mem_reverse] at h
  have h2 := List.dropWhile_subset _ h
  rw [List.mem_reverse] at h2
  exact List.dropWhile_subset _ h2

theorem mem_of_mem_trimStartMatchesF {c : Char} {pat : Str} :
    ∀ (fuel : Nat) (s : Str), c ∈ trimStartMatchesF pat fuel s → c ∈ s := by
  intro fuel
  induction fuel with
  | zero => intro s h; simpa [trimStartMatchesF] using h
  | succ n ih =>
    intro s h
    unfold trimStartMatchesF at h
    split at h
    · exact List.drop_subset _ _ (ih _ h)
    · exact h

theorem mem_of_mem_trimStartMatches {c : Char} {pat s : Str}
    (h : c ∈ trimStartMatches pat s) : c ∈ s :=
  mem_of_mem_trimStartMatchesF _ _ h

/-- Shared raw-field lemma: a recognized line's `ProgressInfo.raw` is the
line with the marker prefix stripped and surrounding whitespace trimmed. -/
theorem parse_raw_eq_trimmed {line : Str} {info : ProgressInfo}
    (h : parse_progress_line line = .ok (some info)) :
    info.raw = trim (trimStartMatches markStr line) := by
  unfold parse_progress_line at h
  split at h
  · split at h
    · exact absurd h (by simp)
    · split at h
      · exact absurd h (by simp)
      · split at h
        · exact absurd h (by simp)
        · split at h
          · have h1 := Option.some.inj (Except.ok.inj h)
            rw [← h1]
          all_goals exact absurd h (by simp)
  · exact absurd h (by simp)

theorem cookieFlag_not_mem_baseArgs {d : Str} (hd : d ≠ cookieFlag) :
    cookieFlag ∉ baseArgs d := by
  intro h
  simp +decide [baseArgs] at h
  exact hd h.symm

theorem cookieFlag_not_mem_audioArgs : cookieFlag ∉ audioArgs := by decide

theorem cookieFlag_not_mem_videoArgs (q : VideoQuality) (u : Str) :
    cookieFlag ∉ videoArgs q u := by
  cases q with
  | low => simp +decide [videoArgs, video_format_for_quality]
  | medium => simp +decide [videoArgs, video_format_for_quality]
  | highest =>
    by_cases hb : is_bilibili_url u <;>
      simp +decide [videoArgs, video_format_for_quality, hb]

theorem cookieFlag_not_mem_siteOverrideArgs (u : Str) :
    cookieFlag ∉ siteOverrideArgs u := by
  unfold siteOverrideArgs
  split
  · decide
  · simp

theorem cookieFlag_mem_cookie_args_iff (browser : Option Str) :
    cookieFlag ∈ cookie_args browser ↔ ∃ b, browser = some b ∧ trim b ≠ [] := by
  cases browser with
  | none => simp [cookie_args]
  | some b =>
    by_cases hb : trim b = []
    · simp [cookie_args, hb]
    · simp [cookie_args, hb]

/-- Any spawned argument list has the `build_args` shape, with the mode
block and transcoder path constrained by the environment. -/
theorem spawnArgs_shape {r : DownloadRequest} {env : DlEnv} {args : List Str}
    (hargs : spawnArgsOf (download_media r env).2 = some args) :
    ∃ modeA ffp, (modeA = audioArgs ∨ ∃ q, modeA = videoArgs q (trim r.url))
      ∧ ffpConstraint env ffp
      ∧ args = build_args (trim r.url) (resolvedOutputDir r env) r.browser modeA ffp := by
  by_cases hu : trim r.url = []
  · simp [download_media, hu, spawnArgsOf] at hargs
  · rcases h1 : env.ytDlp with e1 | bp
    · simp [download_media, hu, h1, spawnArgsOf] at hargs
    · rcases h2 : env.createDir with e2 | u2
      · simp [download_media, hu, h1, h2, spawnArgsOf] at hargs
      · cases hm : r.mode with
        | audio =>
          rcases h3 : env.ffmpegEnsure with e3 | fp
          · simp [download_media, resolveMode, hu, h1, h2, hm, h3, spawnArgsOf] at hargs
          · refine ⟨audioArgs, some fp, Or.inl rfl, Or.inr ⟨fp, rfl, Or.inl h3⟩, ?_⟩
            rcases h4 : env.spawnResult with e4 | u4
            · simp [download_media, resolveMode, runSpawn, hu, h1, h2, hm, h3, h4,
                spawnArgsOf] at hargs
              exact hargs.symm
            · rcases h5 : env.exitCode with e5 | code <;>
                · simp [download_media, resolveMode, runSpawn, hu, h1, h2, hm, h3, h4, h5,
                    spawnArgsOf] at hargs
                  exact hargs.symm
        | video =>
          rcases h3 : env.ffmpegDetect with e3 | fopt
          · simp [download_media, resolveMode, hu, h1, h2, hm, h3, spawnArgsOf] at hargs
          · have hffp : ffpConstraint env fopt := by
              cases fopt with
              | none => exact Or.inl rfl
              | some p => exact Or.inr ⟨p, rfl, Or.inr h3⟩
            refine ⟨videoArgs r.quality (trim r.url), fopt, Or.inr ⟨r.quality, rfl⟩, hffp, ?_⟩
            rcases h4 : env.spawnResult with e4 | u4
            · simp [download_media, resolveMode, runSpawn, hu, h1, h2, hm, h3, h4,
                spawnArgsOf] at hargs
              exact hargs.symm
            · rcases h5 : env.exitCode with e5 | code <;>
                · simp [download_media, resolveMode, runSpawn, hu, h1, h2, hm, h3, h4, h5,
                    spawnArgsOf] at hargs
                  exact hargs.symm

/-! ### Claim theorems -/

/-- C1: the progress parser maps the two specification example lines to
exactly the stated fields — percent 45.2 / "downloading" with total, speed
and ETA for the first, and percent 100 / "finished" with the duration taken
via the `" in "` fallback for the second. -/
theorem C1_parse_examples :
    (parse_progress_line exLine1 = Except.ok (some exInfo1)
      ∧ fvalToRat exInfo1.percent = some (45.2 : ℚ))
    ∧ (parse_progress_line exLine2 = Except.ok (some exInfo2)
      ∧ fvalToRat exInfo2.percent = some (100 : ℚ)) := by
  refine ⟨⟨by decide, ?_⟩, ⟨by decide, ?_⟩⟩
  · show some ((452 : ℚ) / (10 : ℚ)) = some (45.2 : ℚ)
    norm_num
  · show some ((100 : ℚ) / (1 : ℚ)) = some (100 : ℚ)
    norm_num

/-- C4 (counterexample): on the specification's own example line the
emitted progress event's `raw` field is the marker-stripped, trimmed text,
which differs from the original line as read from the stream. -/
theorem C4_counterexample :
    progressRaws (forward_stream [exLine1] "s1".data "stdout".data).1 =
      ["45.2% of 10.00MiB at 1.20MiB/s ETA 00:05".data]
    ∧ "45.2% of 10.00MiB at 1.20MiB/s ETA 00:05".data ≠ exLine1 := by
  constructor
  · decide
  · decide

/-- C4 (amended): every progress event produced by `forward_stream` carries
as `raw` the source line with the `"[download]"` marker stripped and
surrounding whitespace trimmed (not the original line verbatim). -/
theorem C4_raw_is_stripped_line (lines : List Str) (sid stream sid2 : Str)
    (info : ProgressInfo)
    (h : Event.progress sid2 info ∈ (forward_stream lines sid stream).1) :
    ∃ line ∈ lines, info.raw = trim (trimStartMatches markStr line) := by
  simp only [forward_stream, List.mem_flatMap] at h
  obtain ⟨line, hline, hmem⟩ := h
  refine ⟨line, hline, ?_⟩
  rw [List.mem_cons] at hmem
  rcases hmem with heq | hmem
  · exact absurd heq (by simp)
  · cases hp : parse_progress_line line with
    | error e => rw [hp] at hmem; simp at hmem
    | ok o =>
      cases o with
      | none => rw [hp] at hmem; simp at hmem
      | some info2 =>
        rw [hp] at hmem
        rw [List.mem_singleton] at hmem
        injection hmem with h3 h4
        rw [h4]
        exact parse_raw_eq_trimmed hp

/-- C4 witness: the amended statement applied to the example line. -/
theorem C4_raw_is_stripped_line_witness :
    ∃ line ∈ [exLine1], exInfo1.raw = trim (trimStartMatches markStr line) :=
  C4_raw_is_stripped_line [exLine1] "s1".data "stdout".data "s1".data exInfo1 (by decide)

/-- C7: a line not starting with the `"[download]"` marker yields no
progress event; a line without `'%'` yields none; and a line whose text
before the first `'%'` (after marker stripping and trimming) does not parse
as a float yields none. -/
theorem C7_unrecognized_yields_none (line : Str) :
    (markStr.isPrefixOf line = false → parse_progress_line line = .ok none)
    ∧ ('%' ∉ line → parse_progress_line line = .ok none)
    ∧ (∀ pp rp, splitOnceChar '%' (trim (trimStartMatches markStr line)) = some (pp, rp) →
        rustParseF64 (trim pp) = none → parse_progress_line line = .ok none) := by
  refine ⟨?_, ?_, ?_⟩
  · intro h
    unfold parse_progress_line
    rw [if_neg (by simp [h])]
  · intro h
    by_cases hp : markStr.isPrefixOf line
    · have hnotin : '%' ∉ trim (trimStartMatches markStr line) := fun hmem =>
        h (mem_of_mem_trimStartMatches (mem_of_mem_trim hmem))
      simp [parse_progress_line, hp, splitOnceChar_eq_none hnotin]
    · simp [parse_progress_line, hp]
  · intro pp rp hsplit hparse
    by_cases hp : markStr.isPrefixOf line
    · by_cases hpe : trim pp = []
      · simp [parse_progress_line, hp, hsplit, hpe]
      · simp [parse_progress_line, hp, hsplit, hpe, hparse]
    · simp [parse_progress_line, hp]

/-- C7 witness: the three rejection paths at concrete lines. -/
theorem C7_unrecognized_yields_none_witness :
    parse_progress_line "a plain log line".data = .ok none
    ∧ parse_progress_line "[download] Destination: video.mp4".data = .ok none
    ∧ parse_progress_line "[download] abc% of 3MiB".data = .ok none :=
  ⟨(C7_unrecognized_yields_none _).1 (by decide),
   (C7_unrecognized_yields_none _).2.1 (by decide),
   (C7_unrecognized_yields_none _).2.2 "abc".data " of 3MiB".data (by decide) (by decide)⟩

/-- C9: the progress parser is total — for every input line each checked
string-slice operation stays in bounds, so the parser returns a value
(`some` or `none`) and the modelled panic (`Except.error`) is unreachable. -/
theorem C9_parser_total (line : Str) : ∃ r, parse_progress_line line = Except.ok r := by
  unfold parse_progress_line
  split
  · split
    · exact ⟨none, rfl⟩
    · split
      · exact ⟨none, rfl⟩
      · split
        · exact ⟨none, rfl⟩
        · obtain ⟨e, he⟩ := etaExtract_ok (trim _)
          obtain ⟨sp, hs⟩ := speedExtract_ok (trim _)
          obtain ⟨t, ht⟩ := totalExtract_ok (trim _)
          rw [he, hs, ht]
          exact ⟨_, rfl⟩
  · exact ⟨none, rfl⟩

/-- C2 (counterexample): for a URL outside both known site families
(`bilibili`, `douyin`) with a browser hint supplied, `download_media`
still appends the cookie-source argument — the URL is never consulted. -/
theorem C2_counterexample :
    is_bilibili_url (trim reqVideo.url) = false
    ∧ is_douyin_url (trim reqVideo.url) = false
    ∧ spawnArgsHave (download_media reqVideo envOkC).2 cookieFlag = true := by
  refine ⟨?_, ?_, ?_⟩
  · decide
  · decide
  · decide

/-- C2 (amended): the cookie-source argument appears in the spawned
argument list exactly when the supplied browser hint is nonempty after
trimming, independently of the URL; no default browser list exists.  The
side conditions only rule out the URL, the output directory or a transcoder
path being the flag literal itself. -/
theorem C2_cookie_iff_browser_hint (r : DownloadRequest) (env : DlEnv) (args : List Str)
    (hargs : spawnArgsOf (download_media r env).2 = some args)
    (hurl : trim r.url ≠ cookieFlag)
    (hdir : resolvedOutputDir r env ≠ cookieFlag)
    (hff : ffpathsOkB env = true) :
    cookieFlag ∈ args ↔ ∃ b, r.browser = some b ∧ trim b ≠ [] := by
  obtain ⟨modeA, ffp, hmode, hffp, hshape⟩ := spawnArgs_shape hargs
  subst hshape
  have hbase := cookieFlag_not_mem_baseArgs hdir
  have hmodeA : cookieFlag ∉ modeA := by
    rcases hmode with rfl | ⟨q, rfl⟩
    · exact cookieFlag_not_mem_audioArgs
    · exact cookieFlag_not_mem_videoArgs q _
  have hffl : cookieFlag ∉ ffmpegLocArgs ffp := by
    rcases hffp with rfl | ⟨p, rfl, hp⟩
    · simp [ffmpegLocArgs]
    · have hpne : p ≠ cookieFlag := by
        rcases hp with hp | hp
        · simp [ffpathsOkB, hp] at hff
          exact hff.1
        · simp [ffpathsOkB, hp] at hff
          exact hff.2
      intro h
      simp [ffmpegLocArgs] at h
      rcases h with h | h
      · exact absurd h (by decide)
      · exact hpne h.symm
  have hsite := cookieFlag_not_mem_siteOverrideArgs (trim r.url)
  rw [build_args]
  simp only [List.mem_append, List.mem_singleton]
  simp [hbase, hmodeA, hffl, hsite, Ne.symm hurl, cookieFlag_mem_cookie_args_iff]

/-- C2 witness: the amended statement applied to `reqVideo` in `envOkC`. -/
theorem C2_cookie_iff_browser_hint_witness :
    cookieFlag ∈ argsEx ↔ ∃ b, reqVideo.browser = some b ∧ trim b ≠ [] :=
  C2_cookie_iff_browser_hint reqVideo envOkC argsEx (by decide) (by decide)
    (by decide) (by decide)

/-- C3 (counterexample): when neither a system nor a bundled transcoder
exists, the transcoder's `ensure_available` fails with the fixed message
instead of invoking the installer and returning a bundled path. -/
theorem C3_counterexample :
    ffmpeg_ensure_available ffEnvCold = .error ffmpegMissingMsg := by decide

/-- C3 (amended): the downloader's `ensure_available` follows the precedence
system → bundled → synchronous install returned as `Bundled`; the
transcoder's `ensure_available` follows system → bundled but returns the
fixed error, installing nothing, when neither exists. -/
theorem C3_ensure_precedence (ye : YtEnv) (fe : FfEnv) (d : Str) :
    (∀ p, ye.systemBinary = some p → yt_ensure_available ye = (.ok (p, .System), []))
    ∧ (ye.systemBinary = none → ye.dataDir = some d → ye.bundledExists = true →
        ye.permsResult = .ok () →
        yt_ensure_available ye =
          (.ok (ytBundledPathOf d, .Bundled), [.permsFix (ytBundledPathOf d)]))
    ∧ (ye.systemBinary = none → ye.dataDir = some d → ye.bundledExists = false →
        ye.downloadResult = .ok () →
        yt_ensure_available ye =
          (.ok (ytBundledPathOf d, .Bundled),
            [.downloadTo (ytBundledPathOf d), .permsFix (ytBundledPathOf d)]))
    ∧ (∀ p, fe.systemBinary = some p → ffmpeg_ensure_available fe = .ok (p, .System))
    ∧ (fe.systemBinary = none → fe.dataDir = some d → fe.bundledExists = true →
        ffmpeg_ensure_available fe = .ok (ffBundledPathOf d, .Bundled))
    ∧ (fe.systemBinary = none → fe.dataDir = some d → fe.bundledExists = false →
        ffmpeg_ensure_available fe = .error ffmpegMissingMsg) := by
  refine ⟨?_, ?_, ?_, ?_, ?_, ?_⟩
  · intro p hp
    simp [yt_ensure_available, hp]
  · intro hs hd hb hperm
    simp [yt_ensure_available, yt_detect_bundled_binary, yt_bundled_binary_path,
      hs, hd, hb, hperm]
  · intro hs hd hb hdl
    simp [yt_ensure_available, yt_detect_bundled_binary, yt_bundled_binary_path,
      hs, hd, hb, hdl]
  · intro p hp
    simp [ffmpeg_ensure_available, ffmpeg_detect_existing, hp]
  · intro hs hd hb
    simp [ffmpeg_ensure_available, ffmpeg_detect_existing, hs, hd, hb]
  · intro hs hd hb
    simp [ffmpeg_ensure_available, ffmpeg_detect_existing, hs, hd, hb]

/-- C3 witness: the cold-cache conjuncts applied to concrete environments. -/
theorem C3_ensure_precedence_witness :
    yt_ensure_available ytEnvCold =
      (.ok (ytBundledPathOf "/data/app".data, .Bundled),
        [.downloadTo (ytBundledPathOf "/data/app".data),
         .permsFix (ytBundledPathOf "/data/app".data)])
    ∧ ffmpeg_ensure_available ffEnvCold = .error ffmpegMissingMsg :=
  ⟨(C3_ensure_precedence ytEnvCold ffEnvCold "/data/app".data).2.2.1 rfl rfl rfl rfl,
   (C3_ensure_precedence ytEnvCold ffEnvCold "/data/app".data).2.2.2.2.2 rfl rfl rfl⟩

/-- C5: a URL that is empty after trimming is rejected by both
`download_media` and `fetch_media_preview` with a validation error and an
empty effect trace — no binary resolution, no directory creation, no
process spawn, no network call. -/
theorem C5_blank_url_rejected (r : DownloadRequest) (env : DlEnv)
    (pr : PreviewRequest) (penv : PrevEnv)
    (h1 : trim r.url = []) (h2 : trim pr.url = []) :
    download_media r env = (.error "请输入有效的视频链接".data, [])
    ∧ fetch_media_preview pr penv = (.error "请输入需要解析的视频链接".data, []) := by
  constructor
  · simp [download_media, h1]
  · simp [fetch_media_preview, h2]

/-- C5 witness: whitespace-only URLs in a fully succeeding environment. -/
theorem C5_blank_url_rejected_witness :
    download_media reqEmptyUrl envOkC = (.error "请输入有效的视频链接".data, [])
    ∧ fetch_media_preview prEmptyUrl penvOkC =
        (.error "请输入需要解析的视频链接".data, []) :=
  C5_blank_url_rejected reqEmptyUrl envOkC prEmptyUrl penvOkC (by decide) (by decide)

/-- C6: a spawned process that runs to completion yields `Except.ok` with
`success` true exactly for exit code `0`, the captured stderr and stdout
attached; a nonzero exit is data, never an error. -/
theorem C6_exit_status_is_data (r : DownloadRequest) (env : DlEnv) (code : Int)
    (h1 : trim r.url ≠ []) (h2 : exceptIsOk env.ytDlp = true)
    (h3 : exceptIsOk env.createDir = true) (h4 : modeResolutionOk r env = true)
    (h5 : exceptIsOk env.spawnResult = true) (h6 : env.exitCode = .ok code) :
    (download_media r env).1 =
      .ok { success := code == 0,
            stdout := trim (joinLines env.stdoutLines),
            stderr := trim (joinLines env.stderrLines),
            output_dir := resolvedOutputDir r env } := by
  rcases hyt : env.ytDlp with ey | bp
  · rw [hyt] at h2
    simp [exceptIsOk] at h2
  rcases hcd : env.createDir with e2 | u2
  · rw [hcd] at h3
    simp [exceptIsOk] at h3
  rcases hsp : env.spawnResult with e4 | u4
  · rw [hsp] at h5
    simp [exceptIsOk] at h5
  cases hm : r.mode with
  | audio =>
    rcases hff : env.ffmpegEnsure with e3 | fp
    · simp [modeResolutionOk, hm, hff, exceptIsOk] at h4
    · simp [download_media, resolveMode, runSpawn, h1, hyt, hcd, hm, hff, hsp, h6]
  | video =>
    rcases hff : env.ffmpegDetect with e3 | fopt
    · simp [modeResolutionOk, hm, hff, exceptIsOk] at h4
    · simp [download_media, resolveMode, runSpawn, h1, hyt, hcd, hm, hff, hsp, h6]

/-- C6 witness: exit code 2 is reported as `success := false` with the
captured stderr, not as an error. -/
theorem C6_exit_status_is_data_witness :
    (download_media reqVideo envExit2).1 =
      .ok { success := (2 : Int) == 0,
            stdout := trim (joinLines envExit2.stdoutLines),
            stderr := trim (joinLines envExit2.stderrLines),
            output_dir := resolvedOutputDir reqVideo envExit2 } :=
  C6_exit_status_is_data reqVideo envExit2 2 (by decide) (by decide) (by decide)
    (by decide) (by decide) (by decide)

/-- C8: with the downloader already bundled and no system binary, two
`ensure_available` calls in sequence return the same path and the same
`Bundled` source, and neither performs a network download. -/
theorem C8_bundled_ensure_idempotent (env : YtEnv) (d : Str)
    (h1 : env.systemBinary = none) (h2 : env.dataDir = some d)
    (h3 : env.bundledExists = true) (h4 : env.permsResult = .ok ()) :
    (yt_ensure_available env).1 = .ok (ytBundledPathOf d, .Bundled)
    ∧ (yt_ensure_available (applyREffects env (yt_ensure_available env).2)).1 =
        (yt_ensure_available env).1
    ∧ (∀ q, REffect.downloadTo q ∉ (yt_ensure_available env).2)
    ∧ (∀ q, REffect.downloadTo q ∉
        (yt_ensure_available (applyREffects env (yt_ensure_available env).2)).2) := by
  have hres : yt_ensure_available env =
      (.ok (ytBundledPathOf d, .Bundled), [.permsFix (ytBundledPathOf d)]) := by
    simp [yt_ensure_available, yt_detect_bundled_binary, yt_bundled_binary_path,
      h1, h2, h3, h4]
  refine ⟨?_, ?_, ?_, ?_⟩ <;> simp [hres, applyREffects]

/-- C8 witness: both calls on the bundled-only environment agree and never
download. -/
theorem C8_bundled_ensure_idempotent_witness :
    (yt_ensure_available ytEnvBundled).1 =
      .ok (ytBundledPathOf "/data/app".data, .Bundled)
    ∧ (yt_ensure_available
        (applyREffects ytEnvBundled (yt_ensure_available ytEnvBundled).2)).1 =
        (yt_ensure_available ytEnvBundled).1
    ∧ (∀ q, REffect.downloadTo q ∉ (yt_ensure_available ytEnvBundled).2)
    ∧ (∀ q, REffect.downloadTo q ∉
        (yt_ensure_available
          (applyREffects ytEnvBundled (yt_ensure_available ytEnvBundled).2)).2) :=
  C8_bundled_ensure_idempotent ytEnvBundled "/data/app".data rfl rfl rfl rfl

/-- C10: for a validated request, a failing output-directory creation
returns a descriptive error with no spawn in the trace; and whenever a
spawn occurs, the directory-creation effect for the resolved output
directory precedes it in the trace. -/
theorem C10_dir_created_before_spawn (r : DownloadRequest) (env : DlEnv) (e : Str)
    (h1 : trim r.url ≠ []) (h2 : exceptIsOk env.ytDlp = true) :
    (env.createDir = .error e →
      (download_media r env).1 = .error ("无法创建下载目录: ".data ++ e)
      ∧ ∀ b a, Effect.spawn b a ∉ (download_media r env).2)
    ∧ (∀ b a, Effect.spawn b a ∈ (download_media r env).2 →
      ∃ pre post, (download_media r env).2 = pre ++ Effect.spawn b a :: post
        ∧ Effect.createDirAll (resolvedOutputDir r env) ∈ pre) := by
  rcases hyt : env.ytDlp with ey | bp
  · rw [hyt] at h2
    simp [exceptIsOk] at h2
  constructor
  · intro hcd
    constructor
    · simp [download_media, h1, hyt, hcd]
    · intro b a
      simp [download_media, h1, hyt, hcd]
  · intro b a hmem
    rcases hcd : env.createDir with e2 | u2
    · simp [download_media, h1, hyt, hcd] at hmem
    · cases hm : r.mode with
      | audio =>
        rcases h3 : env.ffmpegEnsure with e3 | fp
        · simp [download_media, resolveMode, h1, hyt, hcd, hm, h3] at hmem
        · rcases h4 : env.spawnResult with e4 | u4
          · simp [download_media, resolveMode, runSpawn, h1, hyt, hcd, hm, h3, h4] at hmem
            obtain ⟨hb, ha⟩ := hmem
            subst hb
            subst ha
            refine ⟨[.ensureYtDlp, .createDirAll (resolvedOutputDir r env), .ensureFfmpeg],
              [], ?_, by simp⟩
            simp [download_media, resolveMode, runSpawn, h1, hyt, hcd, hm, h3, h4]
          · rcases h5 : env.exitCode with e5 | code <;>
              · simp [download_media, resolveMode, runSpawn, h1, hyt, hcd, hm, h3, h4,
                  h5] at hmem
                obtain ⟨hb, ha⟩ := hmem
                subst hb
                subst ha
                refine ⟨[.ensureYtDlp, .createDirAll (resolvedOutputDir r env), .ensureFfmpeg],
                  [.wait], ?_, by simp⟩
                simp [download_media, resolveMode, runSpawn, h1, hyt, hcd, hm, h3, h4, h5]
      | video =>
        rcases h3 : env.ffmpegDetect with e3 | fopt
        · simp [download_media, resolveMode, h1, hyt, hcd, hm, h3] at hmem
        · rcases h4 : env.spawnResult with e4 | u4
          · simp [download_media, resolveMode, runSpawn, h1, hyt, hcd, hm, h3, h4] at hmem
            obtain ⟨hb, ha⟩ := hmem
            subst hb
            subst ha
            refine ⟨[.ensureYtDlp, .createDirAll (resolvedOutputDir r env), .detectFfmpeg],
              [], ?_, by simp⟩
            simp [download_media, resolveMode, runSpawn, h1, hyt, hcd, hm, h3, h4]
          · rcases h5 : env.exitCode with e5 | code <;>
              · simp [download_media, resolveMode, runSpawn, h1, hyt, hcd, hm, h3, h4,
                  h5] at hmem
                obtain ⟨hb, ha⟩ := hmem
                subst hb
                subst ha
                refine ⟨[.ensureYtDlp, .createDirAll (resolvedOutputDir r env), .detectFfmpeg],
                  [.wait], ?_, by simp⟩
                simp [download_media, resolveMode, runSpawn, h1, hyt, hcd, hm, h3, h4, h5]

/-- C10 witness: the failing-creation half on `envDirFail` and the
ordering half on `envOkC`. -/
theorem C10_dir_created_before_spawn_witness :
    ((download_media reqVideo envDirFail).1 =
        .error ("无法创建下载目录: ".data ++ "permission denied".data)
      ∧ Effect.spawn "/usr/local/bin/yt-dlp".data argsEx ∉
          (download_media reqVideo envDirFail).2)
    ∧ (∃ pre post, (download_media reqVideo envOkC).2 =
          pre ++ Effect.spawn "/usr/local/bin/yt-dlp".data argsEx :: post
        ∧ Effect.createDirAll (resolvedOutputDir reqVideo envOkC) ∈ pre) :=
  ⟨⟨((C10_dir_created_before_spawn reqVideo envDirFail "permission denied".data
        (by decide) (by decide)).1 rfl).1,
    ((C10_dir_created_before_spawn reqVideo envDirFail "permission denied".data
        (by decide) (by decide)).1 rfl).2 _ _⟩,
   (C10_dir_created_before_spawn reqVideo envOkC "x".data
        (by decide) (by decide)).2 _ _ (by decide)⟩

end YtDlpX
